import Mathlib

/-!
Shallow embedding of the bus-trip logger `ge_stadedegeneve-bernex_p+r_40.py`.

The script records arrival timestamps at a fixed list of bus stops, renders a
status table after each logged arrival, and writes a CSV at the end of the run.
We embed its pure computations directly:

* Python `datetime` values become the `Datetime` structure (year/month/day and
  hour/minute/second/microsecond fields, exactly the fields `datetime` stores);
  `datetime` subtraction goes through the proleptic-Gregorian ordinal, as in
  CPython's `toordinal`.
* `int(td.total_seconds())` truncates the exact microsecond difference toward
  zero, which is `Int.tdiv` of the microsecond delta by `1000000` (we model the
  float rounding of `total_seconds` as exact, which it is for any realistic
  delta of a trip).
* Python `//` and `%` on possibly-negative ints are floor division and floor
  modulus: `Int.fdiv` and `Int.emod`.
* The dict `actual_times` becomes a function `Nat → Option Datetime`; `dict.get`
  is application, and assignment is a pointwise functional update.
* The two report loops (`print_tail_view` and the CSV-export loop) become
  structural recursions that thread `prev_actual` exactly as the source does.
* The driving loop becomes a recursion over a list of external events: each
  `input()` call either returns (`Event.advance now`, bundling the subsequent
  `datetime.now()` as the injectable time source) or raises
  (`Event.interrupt`, covering KeyboardInterrupt / EOFError).  An uncaught
  exception aborts the process before the CSV block, which the embedding
  reflects by returning `Except.error`.
-/

namespace BusTripLog

/-- ANSI terminal color code emitted for late arrivals (source constant `RED`). -/
def RED : String := "\x1b[91m"

/-- ANSI terminal color code emitted for early arrivals (source constant `GREEN`). -/
def GREEN : String := "\x1b[92m"

/-- ANSI terminal color code emitted for on-time arrivals (source constant `YELLOW`). -/
def YELLOW : String := "\x1b[93m"

/-- ANSI terminal reset code (source constant `RESET`). -/
def RESET : String := "\x1b[0m"

/-- Embedding of a Python `datetime.datetime` value: the calendar and clock
fields it stores. -/
structure Datetime where
  year : Nat
  month : Nat
  day : Nat
  hour : Nat
  minute : Nat
  second : Nat
  microsecond : Nat
deriving DecidableEq

/-- Days in all years before year `y` in the proleptic Gregorian calendar
(CPython `datetime._days_before_year`). -/
def days_before_year (y : Nat) : Nat :=
  (y - 1) * 365 + ((y - 1) / 4 - (y - 1) / 100) + (y - 1) / 400

/-- Gregorian leap-year test (CPython `datetime._is_leap`). -/
def is_leap (y : Nat) : Bool :=
  y % 4 == 0 && (y % 100 != 0 || y % 400 == 0)

/-- Days in year `y` strictly before month `m` (CPython
`datetime._days_before_month`). -/
def days_before_month (y m : Nat) : Nat :=
  [0, 0, 31, 59, 90, 120, 151, 181, 212, 243, 273, 304, 334].getD m 0
    + (if 2 < m && is_leap y then 1 else 0)

/-- Proleptic Gregorian ordinal of a date (CPython `datetime.toordinal`),
the quantity through which `datetime` subtraction is computed. -/
def toordinal (y m d : Nat) : Nat :=
  days_before_year y + days_before_month y m + d

/-- A `Datetime` as a microsecond count on the absolute ordinal time line;
differences of these are exactly Python `datetime` subtraction in
microseconds. -/
def toUsec (dt : Datetime) : Nat :=
  toordinal dt.year dt.month dt.day * 86400000000
    + (dt.hour * 3600 + dt.minute * 60 + dt.second) * 1000000
    + dt.microsecond

/-- Microsecond difference `a - b` of two datetimes, as an integer. -/
def deltaUsec (a b : Datetime) : Int :=
  (toUsec a : Int) - (toUsec b : Int)

/-- Zero-padded two-digit rendering used by `strftime` fields `%H`, `%M`, `%S`,
`%m`, `%d`. -/
def pad2 (n : Nat) : String :=
  if n < 10 then "0" ++ toString n else toString n

/-- Zero-padded four-digit rendering used by `strftime` field `%Y`. -/
def pad4 (n : Nat) : String :=
  if n < 10 then "000" ++ toString n
  else if n < 100 then "00" ++ toString n
  else if n < 1000 then "0" ++ toString n
  else toString n

/-- Rendering of `strftime("%H:%M")`. -/
def fmtHM (dt : Datetime) : String :=
  pad2 dt.hour ++ ":" ++ pad2 dt.minute

/-- Rendering of `strftime("%H:%M:%S")`, the actual-time format of the live
status view. -/
def fmtHMS (dt : Datetime) : String :=
  fmtHM dt ++ ":" ++ pad2 dt.second

/-- Rendering of `strftime("%Y-%m-%d %H:%M:%S")`, the actual-time format of the
CSV export. -/
def fmt_full (dt : Datetime) : String :=
  pad4 dt.year ++ "-" ++ pad2 dt.month ++ "-" ++ pad2 dt.day ++ " " ++ fmtHMS dt

/-- Embedding of one entry of the source's `bus_stops` list after the startup
pass has attached `target_time`: sequence number, original `HH:MM` string,
display name, and the scheduled time anchored to today's date. -/
structure Stop where
  sequence : Nat
  time : String
  stop : String
  target_time : Datetime
deriving DecidableEq

/-- Builds one schedule entry the way the startup pass does: the `HH:MM`
string is parsed (`strptime`) and anchored to today's date `y-m-d` with
seconds and microseconds zero. -/
def mk_stop (y m d seq hh mm : Nat) (name : String) : Stop :=
  { sequence := seq
  , time := pad2 hh ++ ":" ++ pad2 mm
  , stop := name
  , target_time := ⟨y, m, d, hh, mm, 0, 0⟩ }

/-- The source's `bus_stops` schedule, parameterized by today's date `y-m-d`
(the source anchors every `target_time` to `datetime.now()`'s date). -/
def bus_stops (y m d : Nat) : List Stop :=
  [ mk_stop y m d 1 9 43 "Grand-Lancy, Stade de Genève"
  , mk_stop y m d 2 9 45 "Lancy-Pont-Rouge, gare/Etoile"
  , mk_stop y m d 3 9 47 "Lancy-Pont-Rouge, gare"
  , mk_stop y m d 4 9 49 "Petit-Lancy, place"
  , mk_stop y m d 5 9 51 "Les Esserts"
  , mk_stop y m d 6 9 52 "Onex, Bandol"
  , mk_stop y m d 7 9 54 "Salle communale"
  , mk_stop y m d 8 9 55 "Conégnon, La Dode"
  , mk_stop y m d 9 9 56 "croisée"
  , mk_stop y m d 10 9 58 "Bernex, P+R" ]

/-- Source `format_deviation(actual_dt, target_dt)`: returns
`(sign, minutes, seconds, total_seconds)` where `total_seconds` is
`int((actual_dt - target_dt).total_seconds())` (truncation toward zero),
`sign` is `"+"` when `total_seconds >= 0` and `"-"` otherwise, and
minutes/seconds decompose the absolute value. -/
def format_deviation (actual_dt target_dt : Datetime) : String × Nat × Nat × Int :=
  let total_seconds : Int := Int.tdiv (deltaUsec actual_dt target_dt) 1000000
  let sign : String := if 0 ≤ total_seconds then "+" else "-"
  let sec_abs : Nat := total_seconds.natAbs
  let minutes : Nat := sec_abs / 60
  let seconds : Nat := sec_abs % 60
  (sign, minutes, seconds, total_seconds)

/-- Source `color_for_deviation(total_seconds)`: `RED` for late (`> 0`),
`GREEN` for early (`< 0`), `YELLOW` for on time (`= 0`). -/
def color_for_deviation (total_seconds : Int) : String :=
  if 0 < total_seconds then RED
  else if total_seconds < 0 then GREEN
  else YELLOW

/-- The deviation text `f"{sign}{m}m {sec}s"` both report loops build from
`format_deviation`'s components. -/
def deviation_text (fd : String × Nat × Nat × Int) : String :=
  fd.1 ++ toString fd.2.1 ++ "m " ++ toString fd.2.2.1 ++ "s"

/-- The travel text `f"{tm}m {ts}s"` with `tm = travel_sec // 60` and
`ts = travel_sec % 60` (Python floor division and floor modulus). -/
def travel_text (travel_sec : Int) : String :=
  toString (Int.fdiv travel_sec 60) ++ "m " ++ toString (Int.emod travel_sec 60) ++ "s"

/-- One printed line of the live status view, as its data cells. -/
structure ViewRow where
  seq : Nat
  stop : String
  target_str : String
  actual_str : String
  deviation_colored : String
  travel_str : String
deriving DecidableEq

/-- The body of one iteration of `print_tail_view`'s loop: builds the row for
stop `s` from `actual_times.get(seq)` (passed as `actual_dt`) and the running
`prev_actual`. -/
def mk_view_row (actual_dt : Option Datetime) (s : Stop) (prev_actual : Option Datetime) :
    ViewRow :=
  let target_str := fmtHM s.target_time
  match actual_dt with
  | some a =>
    let fd := format_deviation a s.target_time
    let deviation_colored := color_for_deviation fd.2.2.2 ++ deviation_text fd ++ RESET
    let travel_str :=
      match prev_actual with
      | some p => travel_text (Int.tdiv (deltaUsec a p) 1000000)
      | none => "-"
    ⟨s.sequence, s.stop, target_str, fmtHMS a, deviation_colored, travel_str⟩
  | none =>
    ⟨s.sequence, s.stop, target_str, "-", "-", "-"⟩

/-- The loop of `print_tail_view`: walks the schedule threading the module
state (`actual_times`, read-only) and the local `prev_actual`, producing the
printed rows and the state as it stands afterwards. -/
def ptv_loop (stops : List Stop) (actual_times : Nat → Option Datetime)
    (prev_actual : Option Datetime) : List ViewRow × (Nat → Option Datetime) :=
  match stops with
  | [] => ([], actual_times)
  | s :: rest =>
    let actual_dt := actual_times s.sequence
    let row := mk_view_row actual_dt s prev_actual
    let prev' := match actual_dt with
      | some a => some a
      | none => prev_actual
    let r := ptv_loop rest actual_times prev'
    (row :: r.1, r.2)

/-- Source `print_tail_view()`: renders the whole status table over the
current arrival record, starting with `prev_actual = None`, and hands the
module state back. -/
def print_tail_view (stops : List Stop) (actual_times : Nat → Option Datetime) :
    List ViewRow × (Nat → Option Datetime) :=
  ptv_loop stops actual_times none

/-- One data row of the CSV export, as its seven cells (the sequence cell is
written out by `csv.writer` as the decimal rendering of the int). -/
structure ExportRow where
  sequence : Nat
  stop : String
  target_str : String
  actual_str : String
  deviation_str : String
  total_sec_str : String
  travel_str : String
deriving DecidableEq

/-- The body of one iteration of the CSV-export loop: the row written for stop
`s` given `actual_times.get(seq)` and the running `prev_actual`.  Unvisited
stops get empty actual, deviation, deviation-seconds and travel cells. -/
def mk_export_row (actual_dt : Option Datetime) (s : Stop) (prev_actual : Option Datetime) :
    ExportRow :=
  let target_str := fmtHM s.target_time
  match actual_dt with
  | some a =>
    let fd := format_deviation a s.target_time
    let travel_str :=
      match prev_actual with
      | some p => travel_text (Int.tdiv (deltaUsec a p) 1000000)
      | none => ""
    ⟨s.sequence, s.stop, target_str, fmt_full a, deviation_text fd, toString fd.2.2.2, travel_str⟩
  | none =>
    ⟨s.sequence, s.stop, target_str, "", "", "", ""⟩

/-- The CSV-export loop: walks the schedule threading `prev_actual` exactly as
the tail view does, producing the data rows written after the header. -/
def export_loop (stops : List Stop) (actual_times : Nat → Option Datetime)
    (prev_actual : Option Datetime) : List ExportRow :=
  match stops with
  | [] => []
  | s :: rest =>
    let actual_dt := actual_times s.sequence
    let row := mk_export_row actual_dt s prev_actual
    let prev' := match actual_dt with
      | some a => some a
      | none => prev_actual
    row :: export_loop rest actual_times prev'

/-- The data rows of the CSV export (everything after the header row),
starting with `prev_actual = None`. -/
def export_rows (stops : List Stop) (actual_times : Nat → Option Datetime) :
    List ExportRow :=
  export_loop stops actual_times none

/-- The header row the export writes first. -/
def output_header : List String :=
  ["Sequence", "Stop", "Target Time", "Actual Time", "Deviation (+/-)",
   "Deviation Secs", "Travel From Prev"]

/-- The running `prev_actual` value after the report loops have walked a list
of stops: the arrival of the most recent visited stop in the list, or the
incoming value if none of them is visited. -/
def last_visited (actual_times : Nat → Option Datetime) :
    List Stop → Option Datetime → Option Datetime
  | [], prev => prev
  | s :: rest, prev =>
    last_visited actual_times rest
      (match actual_times s.sequence with
       | some a => some a
       | none => prev)

/-- The outcome of one `input()` prompt of the driving loop: either the user
advances (and `datetime.now()` then reads `now`), or the read is interrupted
(KeyboardInterrupt / end of input), which raises. -/
inductive Event where
  | advance (now : Datetime)
  | interrupt
deriving DecidableEq

/-- The driving loop: one blocking prompt per stop, in schedule order.  On an
advance it stores the captured timestamp under the stop's sequence number and
moves on; an interrupt (or exhausted input) raises, which the embedding
returns as `Except.error` — the exception is never caught. -/
def runLoop : List Stop → List Event → (Nat → Option Datetime) →
    Except Unit (Nat → Option Datetime)
  | [], _, actual_times => .ok actual_times
  | _ :: _, [], _ => .error ()
  | _ :: _, Event.interrupt :: _, _ => .error ()
  | s :: rest, Event.advance now :: es, actual_times =>
    runLoop rest es (fun k => if k = s.sequence then some now else actual_times k)

/-- The arrival record produced by a run of advances: the functional update
`actual_times[seq] = now` folded over the schedule. -/
def applyArrivals : List Stop → List Datetime → (Nat → Option Datetime) →
    (Nat → Option Datetime)
  | s :: rest, t :: ts, actual_times =>
    applyArrivals rest ts (fun k => if k = s.sequence then some t else actual_times k)
  | _, _, actual_times => actual_times

/-- The whole program: the driving loop starting from an empty arrival record,
then — only if the loop returned normally — the CSV export (header plus one
data row per stop).  An uncaught exception in the loop aborts the process
before the export block, so no file content is produced. -/
def runProgram (stops : List Stop) (events : List Event) :
    Option (List String × List ExportRow) :=
  match runLoop stops events (fun _ => none) with
  | .ok actual_times => some (output_header, export_rows stops actual_times)
  | .error _ => none

/-! Structural lemmas about the two report loops. -/

/-- The tail-view loop hands the module state back unchanged: its body only
reads `actual_times`. -/
theorem ptv_loop_snd (stops : List Stop) (actual_times : Nat → Option Datetime)
    (prev : Option Datetime) : (ptv_loop stops actual_times prev).2 = actual_times := by
  induction stops generalizing prev with
  | nil => rfl
  | cons s rest ih => simp only [ptv_loop]; exact ih _

/-- The tail view prints one row per schedule entry. -/
theorem ptv_loop_length (stops : List Stop) (actual_times : Nat → Option Datetime)
    (prev : Option Datetime) : (ptv_loop stops actual_times prev).1.length = stops.length := by
  induction stops generalizing prev with
  | nil => rfl
  | cons s rest ih => simp only [ptv_loop, List.length_cons]; rw [ih]

/-- The export loop writes one data row per schedule entry. -/
theorem export_loop_length (stops : List Stop) (actual_times : Nat → Option Datetime)
    (prev : Option Datetime) : (export_loop stops actual_times prev).length = stops.length := by
  induction stops generalizing prev with
  | nil => rfl
  | cons s rest ih => simp only [export_loop, List.length_cons]; rw [ih]

/-- Row `i` of the tail view is the row built for stop `i` with `prev_actual`
equal to the running `last_visited` value over the first `i` stops. -/
theorem ptv_loop_getElem (stops : List Stop) (actual_times : Nat → Option Datetime)
    (prev : Option Datetime) (i : Nat) :
    ((ptv_loop stops actual_times prev).1)[i]? =
      (stops[i]?).map
        (fun s => mk_view_row (actual_times s.sequence) s
          (last_visited actual_times (stops.take i) prev)) := by
  induction stops generalizing prev i with
  | nil => simp [ptv_loop]
  | cons s rest ih =>
    cases i with
    | zero => simp [ptv_loop, last_visited]
    | succ n =>
      simp only [ptv_loop, List.getElem?_cons_succ, List.take_succ_cons, last_visited]
      exact ih _ n

/-- Row `i` of the export is the row built for stop `i` with `prev_actual`
equal to the running `last_visited` value over the first `i` stops. -/
theorem export_loop_getElem (stops : List Stop) (actual_times : Nat → Option Datetime)
    (prev : Option Datetime) (i : Nat) :
    (export_loop stops actual_times prev)[i]? =
      (stops[i]?).map
        (fun s => mk_export_row (actual_times s.sequence) s
          (last_visited actual_times (stops.take i) prev)) := by
  induction stops generalizing prev i with
  | nil => simp [export_loop]
  | cons s rest ih =>
    cases i with
    | zero => simp [export_loop, last_visited]
    | succ n =>
      simp only [export_loop, List.getElem?_cons_succ, List.take_succ_cons, last_visited]
      exact ih _ n

/-- The running `prev_actual` value over a list of stops is the arrival of the
last visited stop of the list (its nearest visited stop from the end), falling
back to the incoming value when none is visited. -/
theorem last_visited_filterMap (actual_times : Nat → Option Datetime)
    (l : List Stop) (prev : Option Datetime) :
    last_visited actual_times l prev =
      match (l.filterMap fun s => actual_times s.sequence).getLast? with
      | some a => some a
      | none => prev := by
  induction l generalizing prev with
  | nil => rfl
  | cons s rest ih =>
    simp only [last_visited, List.filterMap_cons]
    cases h : actual_times s.sequence with
    | none => rw [ih]
    | some a =>
      rw [ih]
      cases hfm : rest.filterMap fun s2 => actual_times s2.sequence with
      | nil => simp [List.getLast?_singleton]
      | cons b bs =>
        simp only [List.getLast?_cons_cons]
        cases hgl : (b :: bs).getLast? with
        | none => simp [List.getLast?] at hgl
        | some c => rfl

/-! Lemmas about the driving loop and the arrival record it builds. -/

/-- A run whose events are all advances completes normally and produces the
folded functional updates of `applyArrivals`. -/
theorem runLoop_map_advance (stops : List Stop) (times : List Datetime)
    (actual_times : Nat → Option Datetime) (h : stops.length ≤ times.length) :
    runLoop stops (times.map Event.advance) actual_times =
      Except.ok (applyArrivals stops times actual_times) := by
  induction stops generalizing times actual_times with
  | nil => cases times <;> rfl
  | cons s rest ih =>
    cases times with
    | nil => simp at h
    | cons t ts =>
      simp only [List.length_cons, Nat.add_le_add_iff_right] at h
      simp only [List.map_cons, runLoop, applyArrivals]
      exact ih ts _ h

/-- A key that is no stop's sequence number is untouched by the loop's
updates. -/
theorem applyArrivals_ne (stops : List Stop) (times : List Datetime)
    (actual_times : Nat → Option Datetime) (k : Nat)
    (h : ∀ s ∈ stops, k ≠ s.sequence) :
    applyArrivals stops times actual_times k = actual_times k := by
  induction stops generalizing times actual_times with
  | nil => cases times <;> rfl
  | cons s rest ih =>
    cases times with
    | nil => rfl
    | cons t ts =>
      simp only [applyArrivals]
      rw [ih ts _ fun s2 hs2 => h s2 (List.mem_cons_of_mem _ hs2)]
      simp [h s (List.mem_cons_self _ _)]

/-- When sequence numbers are pairwise distinct, the record produced by the
loop maps stop `j`'s sequence number to exactly the timestamp captured at
iteration `j`. -/
theorem applyArrivals_get (stops : List Stop) (times : List Datetime)
    (actual_times : Nat → Option Datetime)
    (hnd : (stops.map Stop.sequence).Nodup)
    (j : Nat) (hj : j < stops.length) (hjt : j < times.length) :
    applyArrivals stops times actual_times ((stops.get ⟨j, hj⟩).sequence) =
      some (times.get ⟨j, hjt⟩) := by
  induction stops generalizing times actual_times j with
  | nil => simp at hj
  | cons s rest ih =>
    cases times with
    | nil => simp at hjt
    | cons t ts =>
      simp only [List.map_cons, List.nodup_cons] at hnd
      cases j with
      | zero =>
        simp only [List.get, applyArrivals]
        rw [applyArrivals_ne]
        · simp
        · intro s2 hs2 hk
          exact hnd.1 (hk ▸ List.mem_map_of_mem Stop.sequence hs2)
      | succ n =>
        simp only [List.get, applyArrivals]
        exact ih ts _ hnd.2 n (Nat.lt_of_succ_lt_succ hj) (Nat.lt_of_succ_lt_succ hjt)

/-! Unfolding equations for the row builders and the deviation computation. -/

/-- Components of `format_deviation`, unfolded. -/
theorem format_deviation_eq (a t : Datetime) :
    format_deviation a t =
      (if 0 ≤ Int.tdiv (deltaUsec a t) 1000000 then "+" else "-",
       (Int.tdiv (deltaUsec a t) 1000000).natAbs / 60,
       (Int.tdiv (deltaUsec a t) 1000000).natAbs % 60,
       Int.tdiv (deltaUsec a t) 1000000) := rfl

/-- The tail-view row of a visited stop, unfolded. -/
theorem mk_view_row_some (a : Datetime) (s : Stop) (prev : Option Datetime) :
    mk_view_row (some a) s prev =
      ⟨s.sequence, s.stop, fmtHM s.target_time, fmtHMS a,
       color_for_deviation (format_deviation a s.target_time).2.2.2
         ++ deviation_text (format_deviation a s.target_time) ++ RESET,
       match prev with
       | some p => travel_text (Int.tdiv (deltaUsec a p) 1000000)
       | none => "-"⟩ := rfl

/-- The tail-view row of an unvisited stop, unfolded. -/
theorem mk_view_row_none (s : Stop) (prev : Option Datetime) :
    mk_view_row none s prev =
      ⟨s.sequence, s.stop, fmtHM s.target_time, "-", "-", "-"⟩ := rfl

/-- The export row of a visited stop, unfolded. -/
theorem mk_export_row_some (a : Datetime) (s : Stop) (prev : Option Datetime) :
    mk_export_row (some a) s prev =
      ⟨s.sequence, s.stop, fmtHM s.target_time, fmt_full a,
       deviation_text (format_deviation a s.target_time),
       toString (format_deviation a s.target_time).2.2.2,
       match prev with
       | some p => travel_text (Int.tdiv (deltaUsec a p) 1000000)
       | none => ""⟩ := rfl

/-- The export row of an unvisited stop, unfolded. -/
theorem mk_export_row_none (s : Stop) (prev : Option Datetime) :
    mk_export_row none s prev =
      ⟨s.sequence, s.stop, fmtHM s.target_time, "", "", "", ""⟩ := rfl

/-! Concrete values of the spec's worked scenario: a two-stop schedule with
targets 09:43 and 09:45 (anchored to 2026-10-12), an arrival at stop 1 at
09:44:30 and one at stop 2 at 09:47:00. -/

/-- Scenario stop 1, scheduled 09:43. -/
def stopA : Stop := mk_stop 2026 10 12 1 9 43 "A"

/-- Scenario stop 2, scheduled 09:45. -/
def stopB : Stop := mk_stop 2026 10 12 2 9 45 "B"

/-- Scenario schedule. -/
def demo_sched : List Stop := [stopA, stopB]

/-- Scenario arrival at stop 1: 09:44:30. -/
def arr1 : Datetime := ⟨2026, 10, 12, 9, 44, 30, 0⟩

/-- Scenario arrival at stop 2: 09:47:00. -/
def arr2 : Datetime := ⟨2026, 10, 12, 9, 47, 0, 0⟩

/-- Arrival record after logging only stop 1. -/
def record1 : Nat → Option Datetime :=
  fun k => if k = 1 then some arr1 else none

/-- Arrival record after logging stops 1 and 2. -/
def record12 : Nat → Option Datetime :=
  fun k => if k = 1 then some arr1 else if k = 2 then some arr2 else none

/-! Claim C1. -/

/-- C1 (amended): for every recorded arrival, `format_deviation`'s
`total_seconds` is the raw microsecond delta truncated toward zero to whole
seconds (its magnitude is the floor of the absolute delta in seconds and it
never flips side), the sign is `"+"` for a positive truncated delta, `"-"` for
a negative one, and `"+"` when the truncated delta is zero (which includes
arrivals less than one second early); the minutes/seconds decomposition
reconstructs the absolute total seconds, `minutes*60 + seconds =
abs(total_seconds)`. -/
theorem c1_deviation_sign_and_decomposition (actual_dt target_dt : Datetime) :
    ((format_deviation actual_dt target_dt).2.2.2).natAbs
        = (deltaUsec actual_dt target_dt).natAbs / 1000000
    ∧ (0 ≤ deltaUsec actual_dt target_dt → 0 ≤ (format_deviation actual_dt target_dt).2.2.2)
    ∧ (deltaUsec actual_dt target_dt ≤ 0 → (format_deviation actual_dt target_dt).2.2.2 ≤ 0)
    ∧ (0 < (format_deviation actual_dt target_dt).2.2.2 →
        (format_deviation actual_dt target_dt).1 = "+")
    ∧ ((format_deviation actual_dt target_dt).2.2.2 < 0 →
        (format_deviation actual_dt target_dt).1 = "-")
    ∧ ((format_deviation actual_dt target_dt).2.2.2 = 0 →
        (format_deviation actual_dt target_dt).1 = "+")
    ∧ (format_deviation actual_dt target_dt).2.1 * 60
        + (format_deviation actual_dt target_dt).2.2.1
        = ((format_deviation actual_dt target_dt).2.2.2).natAbs := by
  rw [format_deviation_eq]
  dsimp only
  refine ⟨?_, ?_, ?_, ?_, ?_, ?_, ?_⟩
  · rw [Int.natAbs_tdiv]
    rfl
  · intro h
    exact Int.tdiv_nonneg h (by norm_num)
  · intro h
    have h2 : 0 ≤ (-(deltaUsec actual_dt target_dt)).tdiv 1000000 :=
      Int.tdiv_nonneg (by omega) (by norm_num)
    rw [Int.neg_tdiv] at h2
    omega
  · intro h
    simp only [if_pos (le_of_lt h)]
  · intro h
    simp only [if_neg (not_le.mpr h)]
  · intro h
    simp only [if_pos (le_of_eq h.symm)]
  · omega

/-- C1 counterexample: an arrival recorded half a second before the scheduled
time has a negative raw delta `actual − scheduled`, yet `format_deviation`
returns the sign `"+"` (the sign is taken from the truncated `total_seconds`,
which is `0` here), so the returned sign does not match
`sign(actual − scheduled)`. -/
theorem c1_sign_counterexample :
    deltaUsec ⟨2026, 10, 12, 9, 42, 59, 500000⟩ ⟨2026, 10, 12, 9, 43, 0, 0⟩ < 0
    ∧ (format_deviation ⟨2026, 10, 12, 9, 42, 59, 500000⟩ ⟨2026, 10, 12, 9, 43, 0, 0⟩).1 = "+"
    ∧ (format_deviation ⟨2026, 10, 12, 9, 42, 59, 500000⟩ ⟨2026, 10, 12, 9, 43, 0, 0⟩).1 ≠ "-" := by
  decide

/-- C1 witness: the amended theorem applied to the scenario arrival 90 seconds
late, discharging the positive-delta hypothesis concretely. -/
theorem c1_witness :
    (format_deviation arr1 stopA.target_time).1 = "+"
    ∧ (format_deviation arr1 stopA.target_time).2.1 * 60
        + (format_deviation arr1 stopA.target_time).2.2.1
        = ((format_deviation arr1 stopA.target_time).2.2.2).natAbs := by
  have h := c1_deviation_sign_and_decomposition arr1 stopA.target_time
  exact ⟨h.2.2.2.1 (by decide), h.2.2.2.2.2.2⟩

/-! Claim C2. -/

/-- C2: in the tail view, the travel cell of a visited stop is the placeholder
`"-"` when no stop strictly earlier in sequence order has a recorded arrival
(in particular for the first-ever visited stop), and otherwise it is the
rendered duration from the arrival of the nearest strictly earlier visited
stop (the last recorded arrival among the first `i` stops, skipping unvisited
ones) to the current arrival. -/
theorem c2_travel_segment (stops : List Stop) (actual_times : Nat → Option Datetime)
    (i : Nat) (s : Stop) (vr : ViewRow) (a : Datetime)
    (hs : stops[i]? = some s)
    (hv : ((print_tail_view stops actual_times).1)[i]? = some vr)
    (ha : actual_times s.sequence = some a) :
    vr.travel_str =
      match ((stops.take i).filterMap fun s2 => actual_times s2.sequence).getLast? with
      | none => "-"
      | some p => travel_text (Int.tdiv (deltaUsec a p) 1000000) := by
  rw [print_tail_view, ptv_loop_getElem, hs, Option.map_some', last_visited_filterMap, ha] at hv
  cases hgl : ((stops.take i).filterMap fun s2 => actual_times s2.sequence).getLast? with
  | none =>
    rw [hgl] at hv
    obtain rfl : mk_view_row (some a) s none = vr := Option.some.inj hv
    rw [mk_view_row_some]
  | some p =>
    rw [hgl] at hv
    obtain rfl : mk_view_row (some a) s (some p) = vr := Option.some.inj hv
    rw [mk_view_row_some]

/-- C2 witness: the theorem applied to the second scenario stop, whose nearest
earlier visited stop is stop 1, giving the travel text `"2m 30s"`. -/
theorem c2_witness :
    (⟨2, "B", "09:45", "09:47:00", RED ++ "+2m 0s" ++ RESET, "2m 30s"⟩ : ViewRow).travel_str =
      match ((demo_sched.take 1).filterMap fun s2 => record12 s2.sequence).getLast? with
      | none => "-"
      | some p => travel_text (Int.tdiv (deltaUsec arr2 p) 1000000) :=
  c2_travel_segment demo_sched record12 1 stopB _ arr2 (by decide) (by decide) (by decide)

/-! Claim C3. -/

/-- C3 (amended): an arrival recorded exactly at the scheduled time has
deviation text `"+0m 0s"` (the sign `"+"` is always printed, so the text is
not the bare `"0m 0s"`), rendered in the tail view with the on-time marker
`YELLOW`; in general the categorical marker is `RED` (late) for a positive
delta, `GREEN` (early) for a negative one, and `YELLOW` (on time) for exactly
zero. -/
theorem c3_on_time_label (s : Stop) (a : Datetime) (actual_times : Nat → Option Datetime)
    (ha : actual_times s.sequence = some a)
    (h0 : a = s.target_time) :
    deviation_text (format_deviation a s.target_time) = "+0m 0s"
    ∧ ((print_tail_view [s] actual_times).1.map ViewRow.deviation_colored)
        = [YELLOW ++ "+0m 0s" ++ RESET]
    ∧ (∀ t : Int, (0 < t → color_for_deviation t = RED)
        ∧ (t < 0 → color_for_deviation t = GREEN)
        ∧ (t = 0 → color_for_deviation t = YELLOW)) := by
  subst h0
  have hfd : format_deviation s.target_time s.target_time = ("+", 0, 0, 0) := by
    rw [format_deviation_eq]
    simp [deltaUsec]
  refine ⟨?_, ?_, ?_⟩
  · rw [hfd]
    rfl
  · simp only [print_tail_view, ptv_loop, ha, List.map_cons, List.map_nil]
    rw [mk_view_row_some, hfd]
    rfl
  · intro t
    unfold color_for_deviation
    exact ⟨fun h => by rw [if_pos h],
           fun h => by rw [if_neg (by omega), if_pos h],
           fun h => by rw [if_neg (by omega), if_neg (by omega)]⟩

/-- C3 counterexample: at a zero delta the rendered deviation text is
`"+0m 0s"`, not the claimed `"0m 0s"`. -/
theorem c3_zero_text_counterexample :
    deviation_text
        (format_deviation (⟨2026, 10, 12, 9, 43, 0, 0⟩ : Datetime) ⟨2026, 10, 12, 9, 43, 0, 0⟩)
      = "+0m 0s"
    ∧ deviation_text
        (format_deviation (⟨2026, 10, 12, 9, 43, 0, 0⟩ : Datetime) ⟨2026, 10, 12, 9, 43, 0, 0⟩)
      ≠ "0m 0s" := by
  decide

/-- C3 witness: the amended theorem applied to an arrival at stop 1 exactly at
its 09:43 target. -/
theorem c3_witness :
    ((print_tail_view [stopA]
        (fun k => if k = 1 then some stopA.target_time else none)).1.map
          ViewRow.deviation_colored)
      = [YELLOW ++ "+0m 0s" ++ RESET]
    ∧ color_for_deviation 0 = YELLOW := by
  have h := c3_on_time_label stopA stopA.target_time
    (fun k => if k = 1 then some stopA.target_time else none) (by decide) rfl
  exact ⟨h.2.1, (h.2.2 0).2.2 rfl⟩

/-! Claim C4. -/

/-- C4 counterexample: on a 3-stop schedule, interrupting the driving loop at
the second prompt (after logging only stop 1) makes the program abort with the
uncaught exception before the CSV block: `runProgram` produces no export at
all, not the claimed 3-row partial export. -/
theorem c4_interrupt_counterexample :
    ((bus_stops 2026 10 12).take 3).length = 3
    ∧ runProgram ((bus_stops 2026 10 12).take 3)
        [Event.advance ⟨2026, 10, 12, 9, 44, 0, 0⟩, Event.interrupt] = none := by
  exact ⟨rfl, rfl⟩

/-- An interrupt at any prompt before the schedule is exhausted makes the
driving loop raise: after `ts.length` advances with stops still remaining, the
interrupted `input()` call propagates its exception out of the loop. -/
theorem runLoop_interrupt_error (stops : List Stop) (ts : List Datetime) (rest : List Event)
    (actual_times : Nat → Option Datetime) (h : ts.length < stops.length) :
    runLoop stops (ts.map Event.advance ++ Event.interrupt :: rest) actual_times
      = Except.error () := by
  induction stops generalizing ts actual_times with
  | nil => simp at h
  | cons s rest2 ih =>
    cases ts with
    | nil => rfl
    | cons t ts' =>
      simp only [List.length_cons, Nat.add_lt_add_iff_right] at h
      simp only [List.map_cons, List.cons_append, runLoop]
      exact ih ts' _ h

/-- C4 (amended): interrupting the driving loop at any prompt before all stops
are processed — after any number `k < n` of logged advances, including at the
very first prompt — aborts the run before the export block, so no export (not
even a partial one) is performed. -/
theorem c4_interrupt_skips_export (stops : List Stop) (ts : List Datetime) (rest : List Event)
    (h : ts.length < stops.length) :
    runProgram stops (ts.map Event.advance ++ Event.interrupt :: rest) = none := by
  unfold runProgram
  rw [runLoop_interrupt_error stops ts rest _ h]

/-- C4 witness: the amended theorem applied to the two-stop scenario schedule,
interrupted at the second prompt after one logged advance. -/
theorem c4_witness :
    runProgram demo_sched ([arr1].map Event.advance ++ Event.interrupt :: []) = none :=
  c4_interrupt_skips_export demo_sched [arr1] [] (by decide)

/-! Claim C5. -/

/-- C5: for every arrival record, the export writes exactly one data row per
stop of the schedule — the data row count equals the schedule length no matter
how many stops were visited — and every unvisited stop's row has empty actual,
deviation, deviation-seconds and travel cells. -/
theorem c5_export_rows_complete (stops : List Stop) (actual_times : Nat → Option Datetime) :
    (export_rows stops actual_times).length = stops.length
    ∧ ∀ (i : Nat) (s : Stop) (er : ExportRow),
        stops[i]? = some s →
        (export_rows stops actual_times)[i]? = some er →
        actual_times s.sequence = none →
        er.actual_str = "" ∧ er.deviation_str = "" ∧ er.total_sec_str = ""
          ∧ er.travel_str = "" := by
  refine ⟨export_loop_length stops actual_times none, ?_⟩
  intro i s er hs he ha
  unfold export_rows at he
  rw [export_loop_getElem, hs, Option.map_some', ha] at he
  obtain rfl : mk_export_row none s _ = er := Option.some.inj he
  exact ⟨rfl, rfl, rfl, rfl⟩

/-- C5 witness: the theorem applied to the scenario record where only stop 1
was visited; the row of unvisited stop 2 has all four cells empty. -/
theorem c5_witness :
    (export_rows demo_sched record1).length = demo_sched.length
    ∧ ((⟨2, "B", "09:45", "", "", "", ""⟩ : ExportRow).actual_str = ""
        ∧ (⟨2, "B", "09:45", "", "", "", ""⟩ : ExportRow).deviation_str = ""
        ∧ (⟨2, "B", "09:45", "", "", "", ""⟩ : ExportRow).total_sec_str = ""
        ∧ (⟨2, "B", "09:45", "", "", "", ""⟩ : ExportRow).travel_str = "") := by
  have h := c5_export_rows_complete demo_sched record1
  exact ⟨h.1, h.2 1 stopB _ (by decide) (by decide) (by decide)⟩

/-! Claim C6. -/

/-- C6: rendering the status view is pure and idempotent — it hands the
arrival record back unchanged, and rendering again over that returned record
produces exactly the same rows. -/
theorem c6_render_pure_idempotent (stops : List Stop) (actual_times : Nat → Option Datetime) :
    (print_tail_view stops actual_times).2 = actual_times
    ∧ (print_tail_view stops (print_tail_view stops actual_times).2).1
        = (print_tail_view stops actual_times).1 := by
  have h : (print_tail_view stops actual_times).2 = actual_times :=
    ptv_loop_snd stops actual_times none
  exact ⟨h, by rw [h]⟩

/-! Claim C7. -/

/-- C7: in the worked scenario (targets 09:43 and 09:45), the arrival at stop
1 at 09:44:30 renders deviation `+1m 30s` with the late marker `RED` and the
undefined-travel placeholder; after the arrival at stop 2 at 09:47:00, stop
2's row renders deviation `+2m 0s` (vs 09:45) and travel `2m 30s` from stop 1;
the underlying deviation of stop 1 is 90 seconds, categorized late. -/
theorem c7_scenario :
    ((print_tail_view demo_sched record1).1.map
        fun r => (r.actual_str, r.deviation_colored, r.travel_str))
      = [("09:44:30", RED ++ "+1m 30s" ++ RESET, "-"), ("-", "-", "-")]
    ∧ ((print_tail_view demo_sched record12).1.map
        fun r => (r.actual_str, r.deviation_colored, r.travel_str))
      = [("09:44:30", RED ++ "+1m 30s" ++ RESET, "-"),
         ("09:47:00", RED ++ "+2m 0s" ++ RESET, "2m 30s")]
    ∧ (format_deviation arr1 stopA.target_time).2.2.2 = 90
    ∧ (format_deviation arr2 stopB.target_time).2.2.2 = 120
    ∧ color_for_deviation 90 = RED := by
  exact ⟨by decide, by decide, by decide, by decide, by decide⟩

/-! Claim C8. -/

/-- C8: the arrival record only grows.  For a run over a schedule with
pairwise-distinct sequence numbers, the record after the first `i` iterations
of the driving loop maps stop `j`'s sequence number to nothing while `j ≥ i`
(unvisited until its own logArrival call) and to exactly the timestamp
captured at iteration `j` for every `i > j` — the same value at every later
step, so a recorded timestamp is never overwritten or removed, each stop
transitions unvisited → visited exactly once at its own iteration, and there
is no visited → unvisited transition. -/
theorem c8_arrival_record_grows (stops : List Stop) (times : List Datetime)
    (hlen : stops.length = times.length)
    (hnd : (stops.map Stop.sequence).Nodup)
    (i j : Nat) (hi : i ≤ stops.length)
    (s : Stop) (tj : Datetime)
    (hs : stops[j]? = some s) (ht : times[j]? = some tj) :
    ∃ arec,
      runLoop (stops.take i) ((times.take i).map Event.advance) (fun _ => none)
        = Except.ok arec
      ∧ arec s.sequence = if j < i then some tj else none := by
  have hj : j < stops.length := by
    by_contra hc
    rw [List.getElem?_eq_none (by omega)] at hs
    exact Option.noConfusion hs
  have hjt : j < times.length := by omega
  have hsv : stops[j] = s := by
    rw [List.getElem?_eq_getElem hj] at hs
    exact Option.some.inj hs
  have htv : times[j] = tj := by
    rw [List.getElem?_eq_getElem hjt] at ht
    exact Option.some.inj ht
  have hlen2 : (stops.take i).length ≤ (times.take i).length := by
    simp [List.length_take, hlen]
  refine ⟨_, runLoop_map_advance _ _ _ hlen2, ?_⟩
  by_cases hji : j < i
  · rw [if_pos hji]
    have hjtake : j < (stops.take i).length := by
      simp only [List.length_take]
      omega
    have hjtaket : j < (times.take i).length := by
      simp only [List.length_take]
      omega
    have hnd2 : ((stops.take i).map Stop.sequence).Nodup :=
      List.Sublist.nodup (List.Sublist.map _ (List.take_sublist i stops)) hnd
    have h1 := applyArrivals_get (stops.take i) (times.take i) (fun _ => none) hnd2 j
      hjtake hjtaket
    have e1 : (stops.take i).get ⟨j, hjtake⟩ = s := by
      rw [List.get_eq_getElem, List.getElem_take]
      exact hsv
    have e2 : (times.take i).get ⟨j, hjtaket⟩ = tj := by
      rw [List.get_eq_getElem, List.getElem_take]
      exact htv
    rw [e1, e2] at h1
    exact h1
  · rw [if_neg hji]
    apply applyArrivals_ne
    intro s2 hs2 hk
    obtain ⟨j2, hj2lt, hj2⟩ := List.getElem_of_mem hs2
    have hj2i : j2 < i := lt_of_lt_of_le hj2lt (List.length_take_le i stops)
    have hj2len : j2 < stops.length := by
      have h2 := hj2lt
      simp only [List.length_take] at h2
      omega
    rw [List.getElem_take] at hj2
    have hbj2 : j2 < (stops.map Stop.sequence).length := by
      simp only [List.length_map]
      omega
    have hbj : j < (stops.map Stop.sequence).length := by
      simp only [List.length_map]
      omega
    have hmj2 : (stops.map Stop.sequence)[j2] = s2.sequence := by
      rw [List.getElem_map, hj2]
    have hmj : (stops.map Stop.sequence)[j] = s.sequence := by
      rw [List.getElem_map, hsv]
    have heq : (stops.map Stop.sequence)[j2] = (stops.map Stop.sequence)[j] := by
      rw [hmj2, hmj, hk]
    have := (List.Nodup.getElem_inj_iff hnd).mp heq
    omega

/-- C8 witness: the theorem applied to the scenario schedule after one
iteration — stop 1 is recorded with its captured timestamp while stop 2 is
still unvisited. -/
theorem c8_witness :
    (∃ arec,
      runLoop (demo_sched.take 1) (([arr1, arr2].take 1).map Event.advance) (fun _ => none)
        = Except.ok arec
      ∧ arec stopA.sequence = if 0 < 1 then some arr1 else none)
    ∧ (∃ arec,
      runLoop (demo_sched.take 1) (([arr1, arr2].take 1).map Event.advance) (fun _ => none)
        = Except.ok arec
      ∧ arec stopB.sequence = if 1 < 1 then some arr2 else none) :=
  ⟨c8_arrival_record_grows demo_sched [arr1, arr2] (by decide) (by decide) 1 0
      (by decide) stopA arr1 (by decide) (by decide),
   c8_arrival_record_grows demo_sched [arr1, arr2] (by decide) (by decide) 1 1
      (by decide) stopB arr2 (by decide) (by decide)⟩

/-! Claim C9. -/

/-- C9 counterexample: the deviation cell of a visited stop always carries the
ANSI color marker codes — the rendering has no environment input and no
plain-text branch, so the cell is not plain text in any environment,
interactive or not. -/
theorem c9_ansi_counterexample :
    ((print_tail_view demo_sched record1).1.map ViewRow.deviation_colored)
      = [RED ++ "+1m 30s" ++ RESET, "-"]
    ∧ RED ++ "+1m 30s" ++ RESET ≠ "+1m 30s"
    ∧ RED ≠ "" := by
  decide

/-- C9 (amended): in the status view, the deviation of every visited stop is
unconditionally rendered wrapped in an ANSI color marker chosen by its
category — the three category markers are pairwise distinct, so late, early
and on-time are visually distinguished — with no plain-text (marker-free)
mode. -/
theorem c9_deviation_marker (stops : List Stop) (actual_times : Nat → Option Datetime)
    (i : Nat) (s : Stop) (vr : ViewRow) (a : Datetime)
    (hs : stops[i]? = some s)
    (hv : ((print_tail_view stops actual_times).1)[i]? = some vr)
    (ha : actual_times s.sequence = some a) :
    vr.deviation_colored
      = color_for_deviation (format_deviation a s.target_time).2.2.2
        ++ deviation_text (format_deviation a s.target_time) ++ RESET
    ∧ (RED ≠ GREEN ∧ RED ≠ YELLOW ∧ GREEN ≠ YELLOW) := by
  rw [print_tail_view, ptv_loop_getElem, hs, Option.map_some', ha] at hv
  obtain rfl : mk_view_row (some a) s _ = vr := Option.some.inj hv
  exact ⟨rfl, by decide, by decide, by decide⟩

/-- C9 witness: the amended theorem applied to scenario stop 2, whose marker
is the late color. -/
theorem c9_witness :
    (⟨2, "B", "09:45", "09:47:00", RED ++ "+2m 0s" ++ RESET, "2m 30s"⟩
        : ViewRow).deviation_colored
      = color_for_deviation (format_deviation arr2 stopB.target_time).2.2.2
        ++ deviation_text (format_deviation arr2 stopB.target_time) ++ RESET
    ∧ (RED ≠ GREEN ∧ RED ≠ YELLOW ∧ GREEN ≠ YELLOW) :=
  c9_deviation_marker demo_sched record12 1 stopB _ arr2 (by decide) (by decide) (by decide)

/-! Claim C10. -/

/-- C10: the live status view and the CSV export agree per stop on every
underlying value: same row counts; for a visited stop the view's deviation
cell is exactly the export's deviation text wrapped in the category marker
(same sign, minutes, seconds), the export's raw-seconds cell is the same
`total_seconds`, and the actual-time cells render the same timestamp
(time-of-day in the view, full date-time in the export); for an unvisited
stop the view shows the `"-"` placeholder where the export has the empty
string; and the travel cells either are the placeholder/empty pair or are
identical strings (both loops derive the travel seconds from the same
previous arrival). -/
theorem c10_view_export_agreement (stops : List Stop) (actual_times : Nat → Option Datetime)
    (i : Nat) (s : Stop) (vr : ViewRow) (er : ExportRow)
    (hs : stops[i]? = some s)
    (hv : ((print_tail_view stops actual_times).1)[i]? = some vr)
    (he : (export_rows stops actual_times)[i]? = some er) :
    (print_tail_view stops actual_times).1.length = (export_rows stops actual_times).length
    ∧ (∀ a, actual_times s.sequence = some a →
        vr.deviation_colored
          = color_for_deviation (format_deviation a s.target_time).2.2.2
            ++ er.deviation_str ++ RESET
        ∧ er.total_sec_str = toString (format_deviation a s.target_time).2.2.2
        ∧ vr.actual_str = fmtHMS a
        ∧ er.actual_str = fmt_full a)
    ∧ (actual_times s.sequence = none →
        vr.actual_str = "-" ∧ vr.deviation_colored = "-" ∧ vr.travel_str = "-"
        ∧ er.actual_str = "" ∧ er.deviation_str = "" ∧ er.total_sec_str = ""
        ∧ er.travel_str = "")
    ∧ ((vr.travel_str = "-" ∧ er.travel_str = "") ∨ vr.travel_str = er.travel_str) := by
  rw [print_tail_view, ptv_loop_getElem, hs, Option.map_some'] at hv
  unfold export_rows at he
  rw [export_loop_getElem, hs, Option.map_some'] at he
  obtain rfl : mk_view_row (actual_times s.sequence) s _ = vr := Option.some.inj hv
  obtain rfl : mk_export_row (actual_times s.sequence) s _ = er := Option.some.inj he
  refine ⟨?_, ?_, ?_, ?_⟩
  · rw [print_tail_view, ptv_loop_length]
    unfold export_rows
    rw [export_loop_length]
  · intro a ha
    rw [ha]
    exact ⟨rfl, rfl, rfl, rfl⟩
  · intro ha
    rw [ha]
    exact ⟨rfl, rfl, rfl, rfl, rfl, rfl, rfl⟩
  · cases ha : actual_times s.sequence with
    | none => exact Or.inl ⟨rfl, rfl⟩
    | some a =>
      cases hl : last_visited actual_times (stops.take i) none with
      | none => exact Or.inl ⟨rfl, rfl⟩
      | some p => exact Or.inr rfl

/-- C10 witness: the agreement theorem applied to scenario stop 2 — the view's
colored deviation cell wraps exactly the export's deviation text. -/
theorem c10_witness :
    (print_tail_view demo_sched record12).1.length = (export_rows demo_sched record12).length
    ∧ (⟨2, "B", "09:45", "09:47:00", RED ++ "+2m 0s" ++ RESET, "2m 30s"⟩
          : ViewRow).deviation_colored
        = color_for_deviation (format_deviation arr2 stopB.target_time).2.2.2
          ++ (⟨2, "B", "09:45", "2026-10-12 09:47:00", "+2m 0s", "120", "2m 30s"⟩
            : ExportRow).deviation_str ++ RESET := by
  have h := c10_view_export_agreement demo_sched record12 1 stopB
    ⟨2, "B", "09:45", "09:47:00", RED ++ "+2m 0s" ++ RESET, "2m 30s"⟩
    ⟨2, "B", "09:45", "2026-10-12 09:47:00", "+2m 0s", "120", "2m 30s"⟩
    (by decide) (by decide) (by decide)
  exact ⟨h.1, (h.2.1 arr2 (by decide)).1⟩

end BusTripLog
